import Mathlib

/-!
The allocator of memory.c: a bump allocator over one heap arena.

A shallow embedding of `src/memory.c`.  The target is taken to be a 64-bit
little-endian machine: `uintptr_t` and `size_t` are 8 bytes wide, arithmetic on
them is modulo `2 ^ 64`, and `struct block_metadata` is 16 bytes (`prev` at
offset 0, `words` at offset 8).

Memory is one flat byte map.  A load or store in that map at an address that
no object owns (undefined behaviour in C) is not given a special outcome: the
map is total, so the model says what the machine instructions would do.  The
`struct heap` object is kept outside the map; the stores of `m_heap_create`
through the null pointer `heap` end the call in a fault.  Division by a zero
`word_size` is outside the model: theorems over all states assume
`0 < word_size`.
-/

namespace Memory

/-- The byte memory of the process: the byte stored at each address. -/
abbrev Mem := Nat → Nat

/-- The modulus of `size_t` and `uintptr_t` arithmetic. -/
def SIZE_MOD : Nat := 2 ^ 64

/-- The value of `sizeof(struct block_metadata)`: two 8-byte fields. -/
def sizeof_block_metadata : Nat := 16

/-- Read of one `char` / `uint8_t`. -/
def load8 (m : Mem) (a : Nat) : Nat := m a % 256

/-- Write of one `char` / `uint8_t`. -/
def store8 (m : Mem) (a v : Nat) : Mem := fun x => if x = a then v % 256 else m x

/-- Read of an 8-byte little-endian field (`uintptr_t` or `size_t`). -/
def load64 (m : Mem) (a : Nat) : Nat :=
  load8 m a + 256 * (load8 m (a + 1) + 256 * (load8 m (a + 2) + 256 * (load8 m (a + 3)
    + 256 * (load8 m (a + 4) + 256 * (load8 m (a + 5) + 256 * (load8 m (a + 6)
    + 256 * load8 m (a + 7)))))))

/-- Write of an 8-byte little-endian field; the value is truncated to 64 bits. -/
def store64 (m : Mem) (a v : Nat) : Mem :=
  fun x => if a ≤ x ∧ x < a + 8 then (v / 256 ^ (x - a)) % 256 else m x

/-- Modelled from the spec: `enum result_code` is declared in debug.h, which is
not among the sources.  These are the five codes memory.c names; the spec's
error taxonomy calls them Success, InitializationFailure, AllocationFailure,
NullPointerError and IllegalValueError. -/
inductive result_code where
  | R_SUCCESS
  | R_INITIALIZATION_FAILURE
  | R_ALLOCATION_FAILURE
  | R_NULL_POINTER
  | R_ILLEGAL_VALUE
  deriving DecidableEq, Repr

/-- Modelled from the spec: `struct heap` is declared in memory.h, which is not
among the sources.  These are the four fields memory.c reads and writes, the
spec's HeapArena: the buffer address, its capacity, `last_block` and
`next_free` (here `next_block`).  The record is the object behind the static
pointer `heap`. -/
structure heap where
  memory : Nat
  size : Nat
  last_block : Nat
  next_block : Nat
  deriving DecidableEq, Repr

/-- The state a call runs in: the byte memory, the heap object and the static
variables of memory.c.  `heap_ptr` is the value of the static pointer `heap`
(0 when null) and `heap` the `struct heap` object it is dereferenced as, kept
outside the byte map.  `cache_size` and `sector_size` are the values of the
two static `size_t *` pointers; the arrays they point to are in the byte map.
The statics default to 0, as C initialises them. -/
structure State where
  mem : Mem
  heap : heap
  word_size : Nat
  heap_ptr : Nat := 0
  page_size : Nat := 0
  pages : Nat := 0
  caches : Nat := 0
  cache_size : Nat := 0
  sector_size : Nat := 0

/-- What lies outside memory.c when `m_heap_create` runs.  `windows` tells
which branch of `#if PLATFORM == WINDOWS || ENVIRONMENT == WINDOWS` /
`#elif PLATFORM == LINUX || ENVIRONMENT == UNIX` is compiled (the macros come
from platform.h); `os_page_size` is the page size the system reports, as a
`size_t`; `cpu_query_ok` is the result of `GetLogicalProcessorInformation`;
`malloc size` is the address `malloc(size)` returns, 0 when it fails (line 88
is the only call, and its result is never stored: see `m_heap_create_init`). -/
structure Platform where
  windows : Bool
  os_page_size : Nat
  cpu_query_ok : Bool
  malloc : Nat → Nat

/-- How a call ends.  `ret a s`: it returns `a` in state `s`.  `fatal c s`:
the process was ended with error code `c`; `s` is the state at that moment.
`timeout`: the fuel given to a loop ran out.  `fault s`: the process was
ended by a store through a null pointer; `s` is the state at that moment. -/
inductive Exec (α : Type) where
  | ret (a : α) (s : State)
  | fatal (c : result_code) (s : State)
  | timeout
  | fault (s : State)

/-- Whether the call ended in `r_debug_fatalf`. -/
def Exec.is_fatal {α : Type} : Exec α → Bool
  | Exec.fatal _ _ => true
  | _ => false

/-- Modelled from the spec: `r_debug_fatalf` is declared in debug.h, which is
not among the sources.  The spec's diagnostics facility
`fatal(error_kind, origin, message)` is invoked on unrecoverable conditions
and the process aborts: the call does not return, and nothing after it
runs. -/
def r_debug_fatalf {α : Type} (c : result_code) (s : State) : Exec α :=
  Exec.fatal c s

/-- Address computed by `(struct block_metadata *) ptr - sizeof(struct block_metadata)`:
the cast binds tighter than the subtraction, so this is pointer arithmetic in
units of 16 bytes and moves back `16 * 16` bytes. -/
def metadata_before (ptr : Nat) : Nat :=
  (ptr + (SIZE_MOD - sizeof_block_metadata * sizeof_block_metadata)) % SIZE_MOD

/-- Field `prev` of the `struct block_metadata` at address `block`. -/
def block_prev (m : Mem) (block : Nat) : Nat := load64 m block

/-- Field `words` of the `struct block_metadata` at address `block`. -/
def block_words (m : Mem) (block : Nat) : Nat := load64 m (block + 8)

/-- Lines 133-138.  Writes a header at `heap->next_block` and returns
`heap->last_block + sizeof(struct block_metadata)`. -/
def __m_get (minbytes : Nat) (s : State) (word_size : Nat) : Nat × State :=
  let block := s.heap.next_block
  let m1 := store64 s.mem block s.heap.last_block
  let m2 := store64 m1 (block + 8) (minbytes / word_size)
  ((s.heap.last_block + sizeof_block_metadata) % SIZE_MOD, { s with mem := m2 })

/-- Lines 150-156. -/
def m_get (s : State) (minbytes : Nat) : Exec Nat :=
  let r := __m_get minbytes s s.word_size
  let memory := r.1
  let s1 := r.2
  let meta := (memory + (SIZE_MOD - sizeof_block_metadata)) % SIZE_MOD
  let words := block_words s1.mem meta
  Exec.ret memory { s1 with heap := { s1.heap with
    last_block := memory,
    next_block := (memory + words * s1.word_size) % SIZE_MOD } }

/-- Lines 46-60: stores the reported page size in the static `page_size` and
ends the process when it is 0. -/
def __m_init_page_size (p : Platform) (s : State) : Exec Unit :=
  let s1 := { s with page_size := p.os_page_size }
  if s1.page_size = 0 then r_debug_fatalf result_code.R_INITIALIZATION_FAILURE s1
  else Exec.ret () s1

/-- Lines 63-78.  The Windows branch ends the process when the processor query
fails and otherwise sets `word_size = sizeof(uintptr_t)`; the Unix branch is
empty.  Neither branch assigns `cache_size`, `sector_size` or `caches`. -/
def __m_init_cpu_info (p : Platform) (s : State) : Exec Unit :=
  if p.windows then
    if p.cpu_query_ok then Exec.ret () { s with word_size := 8 }
    else r_debug_fatalf result_code.R_INITIALIZATION_FAILURE s
  else Exec.ret () s

/-- Lines 85-94, the block guarded by `if (!heap)`.  Inside the block the
pointer `heap` is null and there is no `struct heap` object: line 86 stores
the static `pages`, line 87 computes the local `size = pages * page_size`,
and line 88, which calls `malloc(size)` and stores the result in
`heap->memory`, is a store through the null pointer.  The call ends there;
lines 89-93 are not reached. -/
def m_heap_create_init (s : State) (maxbytes : Nat) : Exec Unit :=
  if s.heap_ptr = 0 then
    let pages := maxbytes / s.page_size
    Exec.fault { s with pages := pages }
  else Exec.ret () s

/-- Lines 80-102.  `minbytes` only appears in the message of line 92. -/
def m_heap_create (p : Platform) (s : State) (minbytes maxbytes : Nat) : Exec Unit :=
  match __m_init_page_size p s with
  | Exec.ret _ s1 =>
      match m_heap_create_init s1 maxbytes with
      | Exec.ret _ s2 =>
          match __m_init_cpu_info p s2 with
          | Exec.ret _ s3 =>
              Exec.ret () { s3 with heap := { s3.heap with
                last_block := 0,
                next_block := s3.heap.memory } }
          | Exec.fatal c s3 => Exec.fatal c s3
          | Exec.timeout => Exec.timeout
          | Exec.fault s3 => Exec.fault s3
      | Exec.fatal c s2 => Exec.fatal c s2
      | Exec.timeout => Exec.timeout
      | Exec.fault s2 => Exec.fault s2
  | Exec.fatal c s1 => Exec.fatal c s1
  | Exec.timeout => Exec.timeout
  | Exec.fault s1 => Exec.fault s1

/-- Lines 140-148.  The header is looked up with `metadata_before`. -/
def __m_free (ptr : Nat) (s : State) : Exec result_code :=
  let block := metadata_before ptr
  let prev := block_prev s.mem block
  let m1 := store64 s.mem block 0
  let m2 := store64 m1 (block + 8) 0
  Exec.ret result_code.R_SUCCESS { s with
    mem := m2,
    heap := { s.heap with last_block := prev, next_block := block } }

/-- Lines 169-171. -/
def m_free (s : State) (ptr : Nat) : Exec result_code :=
  __m_free ptr s

/-- The loop of lines 191-193, `n` iterations from index `i` on: each copies
the byte `src[i]` to `dst[i]`.  `__m_copy` runs it for `max - offset`
iterations from `offset`, which is the run of `for (i = offset; i < max; i++)`. -/
def __m_copy_loop : Nat → Mem → Nat → Nat → Nat → Mem
  | 0, m, _, _, _ => m
  | n + 1, m, src, dst, i =>
      __m_copy_loop n (store8 m (dst + i) (load8 m (src + i))) src dst (i + 1)

/-- Lines 179-194. -/
def __m_copy (s : State) (src srclen dst dstlen offset : Nat) : Exec Unit :=
  if dst = 0 then r_debug_fatalf result_code.R_NULL_POINTER s
  else
    let max := if srclen < dstlen then srclen else dstlen
    if offset ≥ max then r_debug_fatalf result_code.R_ILLEGAL_VALUE s
    else Exec.ret () { s with mem := __m_copy_loop (max - offset) s.mem src dst offset }

/-- Lines 196-200.  Both lengths are `words * word_size` of the header found
with `metadata_before`. -/
def m_copy (s : State) (src dst offset : Nat) : Exec Unit :=
  let srclen := (block_words s.mem (metadata_before src) * s.word_size) % SIZE_MOD
  let dstlen := (block_words s.mem (metadata_before dst) * s.word_size) % SIZE_MOD
  __m_copy s src srclen dst dstlen offset

/-- Lines 202-204. -/
def m_copyd (s : State) (src srclen dst dstlen offset : Nat) : Exec Unit :=
  __m_copy s src srclen dst dstlen offset

/-- The inner loop of lines 219-221, `n` iterations from `j` on: each stores
`value[j]` at `memory[i + j]`.  `j` is a `uint8_t` below `stride`, so `j++`
never wraps; the index `i + j` is computed in `size_t`. -/
def __m_set_inner : Nat → Mem → Nat → Nat → Nat → Nat → Mem
  | 0, m, _, _, _, _ => m
  | n + 1, m, memory, value, i, j =>
      __m_set_inner n (store8 m (memory + (i + j) % SIZE_MOD) (load8 m (value + j)))
        memory value i (j + 1)

/-- The outer loop of lines 218-222 from index `i` on, one unit of fuel for
each test of `i < len`; `i += stride` is `size_t` arithmetic.  `none` when the
fuel runs out before the test fails. -/
def __m_set_loop : Nat → Mem → Nat → Nat → Nat → Nat → Nat → Option Mem
  | 0, _, _, _, _, _, _ => none
  | fuel + 1, m, memory, value, stride, len, i =>
      if i < len then
        __m_set_loop fuel (__m_set_inner stride m memory value i 0) memory value stride len
          ((i + stride) % SIZE_MOD)
      else some m

/-- Lines 213-223.  `stride` is a `uint8_t`: it ranges over 0..255. -/
def __m_set (fuel : Nat) (s : State) (memory value stride len : Nat) : Exec Unit :=
  if memory = 0 then r_debug_fatalf result_code.R_NULL_POINTER s
  else
    match __m_set_loop fuel s.mem memory value stride len 0 with
    | none => Exec.timeout
    | some m => Exec.ret () { s with mem := m }

/-- Lines 225-227.  The length is `words * word_size` of the header found with
`metadata_before`. -/
def m_set (fuel : Nat) (s : State) (memory value stride : Nat) : Exec Unit :=
  __m_set fuel s memory value stride
    ((block_words s.mem (metadata_before memory) * s.word_size) % SIZE_MOD)

/-- Lines 229-231. -/
def m_setd (fuel : Nat) (s : State) (memory value stride len : Nat) : Exec Unit :=
  __m_set fuel s memory value stride len

/-- Lines 158-163.  `uint8_t *value = { 0 };` declares a pointer and
initialises it with 0: `value` is the null pointer. -/
def m_getn (fuel : Nat) (s : State) (minbytes : Nat) : Exec Nat :=
  match m_get s minbytes with
  | Exec.ret result s1 =>
      let value := 0
      match m_set fuel s1 result value 1 with
      | Exec.ret _ s2 => Exec.ret result s2
      | Exec.fatal c s2 => Exec.fatal c s2
      | Exec.timeout => Exec.timeout
      | Exec.fault s2 => Exec.fault s2
  | Exec.fatal c s1 => Exec.fatal c s1
  | Exec.timeout => Exec.timeout
  | Exec.fault s1 => Exec.fault s1

/-- Lines 173-177. -/
def m_frees (fuel : Nat) (s : State) (ptr : Nat) : Exec result_code :=
  let value := 0
  match m_set fuel s ptr value 1 with
  | Exec.ret _ s1 => __m_free ptr s1
  | Exec.fatal c s1 => Exec.fatal c s1
  | Exec.timeout => Exec.timeout
  | Exec.fault s1 => Exec.fault s1

/-- Lines 233-235: `cache_size[cache]`, an 8-byte entry of the array the
static pointer `cache_size` points to.  `enum cache` (memory.h) is taken as
its integer value. -/
def m_get_cache_size (s : State) (cache : Nat) : Exec Nat :=
  Exec.ret (load64 s.mem (s.cache_size + 8 * cache)) s

/-- Lines 237-239. -/
def m_get_page_size (s : State) : Exec Nat :=
  Exec.ret s.page_size s

/-- Lines 241-243: `sector_size[cache]`. -/
def m_get_sector_size (s : State) (cache : Nat) : Exec Nat :=
  Exec.ret (load64 s.mem (s.sector_size + 8 * cache)) s

/-- Lines 245-247. -/
def m_get_word_size (s : State) : Exec Nat :=
  Exec.ret s.word_size s

/-- Lines 249-251. -/
def m_get_caches (s : State) : Exec Nat :=
  Exec.ret s.caches s

/-- Lines 253-255: `cache_size[cache] / sector_size[cache]`. -/
def m_get_cache_sectors (s : State) (cache : Nat) : Exec Nat :=
  Exec.ret (load64 s.mem (s.cache_size + 8 * cache) / load64 s.mem (s.sector_size + 8 * cache)) s

/-- The first index the loop of lines 218-222 does not reach when no `size_t`
addition wraps: `stride` times the number of its iterations,
`ceil(len / stride)`. -/
def fill_end (stride len : Nat) : Nat :=
  (len + (stride - 1)) / stride * stride

/-- The cursors as lines 100-101 of `m_heap_create` leave them, over an arena
of `size` bytes at address `memory`: `last_block` null, `next_block` at the
arena start.  The pointer `heap` is not null. -/
def fresh_arena (mem : Mem) (memory size word_size : Nat) : State :=
  { mem := mem,
    heap := { memory := memory, size := size, last_block := 0, next_block := memory },
    word_size := word_size,
    heap_ptr := 2048 }

/-- A 4096-byte arena at address 4096 with `word_size = 8` and three live
blocks laid out header-then-payload:
* A: header at 4096 (`prev = 0`, `words = 30`), payload 4112..4351;
* B: header at 4352 (`prev = 4096`, `words = 30`), payload 4368..4607, whose
  first 8 bytes hold the number 4096 as user data;
* C: header at 4608 (`prev = 4352`, `words = 2`), payload 4624..4639, whose
  first byte is 255.
`last_block` is C's header and `next_block` the first byte after C's
payload.  Every other byte is 0.  The pointer `heap` is not null and the
arena is one page of 4096 bytes. -/
def arena3 : State :=
  { mem := fun a =>
      if a = 4104 then 30
      else if a = 4353 then 16
      else if a = 4360 then 30
      else if a = 4369 then 16
      else if a = 4609 then 17
      else if a = 4616 then 2
      else if a = 4624 then 255
      else 0,
    heap := { memory := 4096, size := 4096, last_block := 4608, next_block := 4640 },
    word_size := 8,
    heap_ptr := 2048,
    page_size := 4096,
    pages := 1 }

/-- The state `arena3` with a cache table of two levels: `caches = 2`, the
array `cache_size` at 8192 holding 32768 and 262144, and right after it the
array `sector_size` at 8208 holding 64 and 64.  The 8 bytes after that, at
8224, hold the number 1. -/
def arena3_caches : State :=
  { arena3 with
    mem := fun a =>
      if a = 8193 then 128
      else if a = 8202 then 4
      else if a = 8208 then 64
      else if a = 8216 then 64
      else if a = 8224 then 1
      else arena3.mem a,
    caches := 2,
    cache_size := 8192,
    sector_size := 8208 }

/-- The state before any call: every static variable is 0, as C initialises
it, so the pointer `heap` is null; memory is all zero. -/
def startup : State :=
  { mem := fun _ => 0, heap := { memory := 0, size := 0, last_block := 0, next_block := 0 },
    word_size := 0 }

/-- A Unix platform with pages of 4096 bytes whose `malloc` returns the
address 4096. -/
def unix4096 : Platform :=
  { windows := false, os_page_size := 4096, cpu_query_ok := true, malloc := fun _ => 4096 }

/-! ## Memory lemmas -/

theorem store64_outside (m : Mem) (a v x : Nat) (h : x < a ∨ a + 8 ≤ x) :
    store64 m a v x = m x := by
  unfold store64
  rw [if_neg]
  omega

theorem store64_inside (m : Mem) (a v k : Nat) (h : k < 8) :
    store64 m a v (a + k) = (v / 256 ^ k) % 256 := by
  unfold store64
  rw [if_pos (by omega), Nat.add_sub_cancel_left]

theorem le_bytes (v : Nat) :
    v % 256 + 256 * (v / 256 % 256 + 256 * (v / 256 ^ 2 % 256 + 256 * (v / 256 ^ 3 % 256
    + 256 * (v / 256 ^ 4 % 256 + 256 * (v / 256 ^ 5 % 256 + 256 * (v / 256 ^ 6 % 256
    + 256 * (v / 256 ^ 7 % 256))))))) = v % 2 ^ 64 := by
  have e : (2 : Nat) ^ 64 = 256 * (256 * (256 * (256 * (256 * (256 * (256 * 256)))))) := by
    norm_num
  rw [e]
  simp only [Nat.mod_mul, Nat.div_div_eq_div_mul]
  norm_num

theorem load64_store64 (m : Mem) (a v : Nat) :
    load64 (store64 m a v) a = v % SIZE_MOD := by
  have h0 := store64_inside m a v 0 (by omega)
  have h1 := store64_inside m a v 1 (by omega)
  have h2 := store64_inside m a v 2 (by omega)
  have h3 := store64_inside m a v 3 (by omega)
  have h4 := store64_inside m a v 4 (by omega)
  have h5 := store64_inside m a v 5 (by omega)
  have h6 := store64_inside m a v 6 (by omega)
  have h7 := store64_inside m a v 7 (by omega)
  simp only [Nat.add_zero] at h0
  unfold load64 load8 SIZE_MOD
  rw [h0, h1, h2, h3, h4, h5, h6, h7]
  simp only [Nat.mod_mod, pow_zero, pow_one, Nat.div_one]
  exact le_bytes v

/-- The layout of `arena3`: the three headers, the user data in B's payload,
and the cursors, which are what a bump allocator leaves after three requests
of 240, 240 and 16 bytes. -/
theorem arena3_layout :
    block_prev arena3.mem 4096 = 0 ∧ block_words arena3.mem 4096 = 30 ∧
    block_prev arena3.mem 4352 = 4096 ∧ block_words arena3.mem 4352 = 30 ∧
    block_prev arena3.mem 4608 = 4352 ∧ block_words arena3.mem 4608 = 2 ∧
    4096 + 16 + 30 * 8 = 4352 ∧ 4352 + 16 + 30 * 8 = 4608 ∧ 4608 + 16 + 2 * 8 = 4640 ∧
    load64 arena3.mem 4368 = 4096 ∧ load8 arena3.mem 4624 = 255 ∧
    arena3.heap.last_block = 4608 ∧ arena3.heap.next_block = 4640 ∧
    arena3.heap.next_block ≤ arena3.heap.memory + arena3.heap.size := by
  decide

/-! ## Block allocator: `m_get`, `m_free`, `m_getn` -/

/-- C1, at the failing input `min_bytes = 100`, `word_size = 8`: in every
arena state `m_get` stores `words = 12` in the header it writes at the old
`next_block`.  That is `floor(100 / 8)`, not `ceil(100 / 8) = 13`, and the
payload of `12 * 8 = 96` bytes is smaller than the 100 bytes asked for. -/
theorem m_get_100_stores_12_words (s : State) :
    ∃ h s', m_get { s with word_size := 8 } 100 = Exec.ret h s' ∧
      block_words s'.mem s.heap.next_block = 12 ∧
      block_words s'.mem s.heap.next_block * 8 < 100 ∧
      block_words s'.mem s.heap.next_block ≠ (100 + (8 - 1)) / 8 := by
  have hw : block_words (store64 (store64 s.mem s.heap.next_block s.heap.last_block)
      (s.heap.next_block + 8) (100 / 8)) s.heap.next_block = 12 := by
    unfold block_words
    rw [load64_store64]
    decide
  refine ⟨_, _, rfl, ?_, ?_, ?_⟩
  · exact hw
  · show block_words (store64 (store64 s.mem s.heap.next_block s.heap.last_block)
      (s.heap.next_block + 8) (100 / 8)) s.heap.next_block * 8 < 100
    rw [hw]
    decide
  · show block_words (store64 (store64 s.mem s.heap.next_block s.heap.last_block)
      (s.heap.next_block + 8) (100 / 8)) s.heap.next_block ≠ (100 + (8 - 1)) / 8
    rw [hw]
    decide

/-- C2, at the failing input `arena3`, `min_bytes = 16`: `m_get` writes the
header at the old `next_block` 4640 with `prev` = old `last_block` 4608 and
`words = 2`, but the handle it returns is old `last_block + 16 = 4624`, not
old `next_block + 16 = 4656`; it leaves `last_block = 4624` (the handle, not
the header address 4640) and `next_block = 4640`, not `4656 + 2 * 8`. -/
theorem m_get_arena3_cursors :
    ∃ h s', m_get arena3 16 = Exec.ret h s' ∧
      block_prev s'.mem arena3.heap.next_block = arena3.heap.last_block ∧
      block_words s'.mem arena3.heap.next_block = 2 ∧
      h = 4624 ∧ h ≠ arena3.heap.next_block + sizeof_block_metadata ∧
      s'.heap.last_block = 4624 ∧ s'.heap.last_block ≠ arena3.heap.next_block ∧
      s'.heap.next_block = 4640 ∧
      s'.heap.next_block ≠ arena3.heap.next_block + sizeof_block_metadata + 2 * arena3.word_size :=
  ⟨_, _, rfl, by decide, by decide, by decide, by decide, by decide, by decide, by decide,
    by decide⟩

/-- C3, at the failing input: a fresh 4096-byte arena at address 4096 with
`word_size = 8`, whatever the memory holds, then `get(16); get(16)`.  The
handles are 16 and 32 (null plus one and two header sizes): both lie below the
arena start, and the 16 bytes at the first handle run up to the second handle
itself instead of stopping one header size before it. -/
theorem m_get_fresh_arena_handles (mem : Mem) :
    ∃ h1 s1 h2 s2, m_get (fresh_arena mem 4096 4096 8) 16 = Exec.ret h1 s1 ∧
      m_get s1 16 = Exec.ret h2 s2 ∧
      h1 = 16 ∧ h2 = 32 ∧
      h1 < (fresh_arena mem 4096 4096 8).heap.memory ∧
      h2 < (fresh_arena mem 4096 4096 8).heap.memory ∧
      ¬ (h1 + 16 ≤ h2 - sizeof_block_metadata) := by
  refine ⟨_, _, _, _, rfl, rfl, rfl, rfl, ?_, ?_, ?_⟩
  · show (16 : Nat) < 4096
    decide
  · show (32 : Nat) < 4096
    decide
  · show ¬ ((16 : Nat) + 16 ≤ 32 - 16)
    decide

/-- C4 as stated fails at `arena3`, `min_bytes = 8000`: the new header and
payload would end beyond the arena (`4640 + 16 + 8000 > 4096 + 4096`), and
`m_get` returns the handle 4624 instead of failing. -/
theorem m_get_arena3_beyond_capacity :
    arena3.heap.next_block + sizeof_block_metadata + 8000 / arena3.word_size * arena3.word_size
        > arena3.heap.memory + arena3.heap.size ∧
      (∃ s', m_get arena3 8000 = Exec.ret 4624 s') ∧
      ¬ ∃ s', m_get arena3 8000 = Exec.fatal result_code.R_ALLOCATION_FAILURE s' := by
  refine ⟨by decide, ⟨_, rfl⟩, ?_⟩
  rintro ⟨s', h⟩
  exact Exec.noConfusion h

/-- C4 amended: `m_get` makes no capacity check.  In every arena state with
`word_size > 0` and for every `min_bytes`, also when the new header and
payload would end beyond the arena, it returns a handle and does not end in
`R_ALLOCATION_FAILURE`; neither the handle nor the cursors it leaves depend on
the arena size. -/
theorem m_get_no_capacity_check (s : State) (minbytes : Nat) (_hws : 0 < s.word_size) :
    ∃ h s', m_get s minbytes = Exec.ret h s' ∧
      (∀ s'', m_get s minbytes ≠ Exec.fatal result_code.R_ALLOCATION_FAILURE s'') ∧
      ∀ size, ∃ t', m_get { s with heap := { s.heap with size := size } } minbytes = Exec.ret h t' ∧
        t'.heap.last_block = s'.heap.last_block ∧ t'.heap.next_block = s'.heap.next_block := by
  refine ⟨_, _, rfl, ?_, ?_⟩
  · intro s'' h
    exact Exec.noConfusion h
  · intro size
    exact ⟨_, rfl, rfl, rfl⟩

/-- Witness of `m_get_no_capacity_check`: `get(8000)` on `arena3`, whose arena
has 4096 bytes. -/
theorem m_get_no_capacity_check_witness :
    ∃ h s', m_get arena3 8000 = Exec.ret h s' ∧
      (∀ s'', m_get arena3 8000 ≠ Exec.fatal result_code.R_ALLOCATION_FAILURE s'') ∧
      ∀ size, ∃ t', m_get { arena3 with heap := { arena3.heap with size := size } } 8000
          = Exec.ret h t' ∧
        t'.heap.last_block = s'.heap.last_block ∧ t'.heap.next_block = s'.heap.next_block :=
  m_get_no_capacity_check arena3 8000 (by decide)

/-- C5, at the failing input `arena3`, `a = b = 16`: after `get(16)` the
cursors are `last_block = 4624`, `next_block = 4640`; after the further
`hb = get(16); free(hb)` they are `last_block = 0`, `next_block = 4384`. -/
theorem m_get_m_get_m_free_arena3 :
    ∃ ha sa hb sb r sc, m_get arena3 16 = Exec.ret ha sa ∧ m_get sa 16 = Exec.ret hb sb ∧
      m_free sb hb = Exec.ret r sc ∧
      sa.heap.last_block = 4624 ∧ sa.heap.next_block = 4640 ∧
      hb = 4640 ∧
      sc.heap.last_block = 0 ∧ sc.heap.next_block = 4384 ∧
      sc.heap.last_block ≠ sa.heap.last_block ∧ sc.heap.next_block ≠ sa.heap.next_block :=
  ⟨_, _, _, _, _, _, rfl, rfl, rfl, by decide, by decide, by decide, by decide, by decide,
    by decide, by decide⟩

/-- C6, at the failing input `arena3`, `n = 10`: `h1 = get(10)` is 4624,
`free(h1)` leaves `last_block = 4096` and `next_block = 4368`, and the second
`get(10)` returns 4112, a different address. -/
theorem m_get_m_free_m_get_arena3 :
    ∃ h1 s1 r s2 h2 s3, m_get arena3 10 = Exec.ret h1 s1 ∧ m_free s1 h1 = Exec.ret r s2 ∧
      m_get s2 10 = Exec.ret h2 s3 ∧
      h1 = 4624 ∧ s2.heap.last_block = 4096 ∧ s2.heap.next_block = 4368 ∧
      h2 = 4112 ∧ h2 ≠ h1 :=
  ⟨_, _, _, _, _, _, rfl, rfl, rfl, by decide, by decide, by decide, by decide, by decide⟩

/-- C7, at the failing input `arena3`, `h = get(16) = 4624`: the 16 bytes
before `h` are the header at 4608 (`prev = 4352`, `words = 2`) and the header
`get` wrote is at 4640 (`prev = 4608`, `words = 2`).  `free(h)` returns
success with `last_block = 4096` and `next_block = 4368`, which is neither
header's `prev` and neither header's address, and both headers keep their
`prev` and `words`; the 16 bytes it clears are those at `h - 256 = 4368`. -/
theorem m_free_arena3_header :
    ∃ h s1 s2, m_get arena3 16 = Exec.ret h s1 ∧
      m_free s1 h = Exec.ret result_code.R_SUCCESS s2 ∧
      h = 4624 ∧
      block_prev s1.mem (h - sizeof_block_metadata) = 4352 ∧
      block_words s1.mem (h - sizeof_block_metadata) = 2 ∧
      block_prev s1.mem arena3.heap.next_block = 4608 ∧
      block_words s1.mem arena3.heap.next_block = 2 ∧
      s2.heap.last_block = 4096 ∧ s2.heap.next_block = 4368 ∧
      block_prev s2.mem (h - sizeof_block_metadata) = 4352 ∧
      block_words s2.mem (h - sizeof_block_metadata) = 2 ∧
      block_prev s2.mem arena3.heap.next_block = 4608 ∧
      block_words s2.mem arena3.heap.next_block = 2 ∧
      block_prev s1.mem 4368 = 4096 ∧ block_prev s2.mem 4368 = 0 :=
  ⟨_, _, _, rfl, rfl, by decide, by decide, by decide, by decide, by decide, by decide,
    by decide, by decide, by decide, by decide, by decide, by decide, by decide⟩

/-- C8, at the failing input `arena3`, `n = 16`: with any fuel for the fill
loop, `m_getn` returns the handle 4624 and the byte at the handle is still
255.  The fill length is read from the `words` field at `4624 - 256`, which
is 0, so no byte is written. -/
theorem m_getn_arena3_not_zeroed (fuel : Nat) :
    ∃ h s', m_getn (fuel + 1) arena3 16 = Exec.ret h s' ∧ h = 4624 ∧
      block_words s'.mem (metadata_before h) = 0 ∧
      load8 s'.mem h = 255 ∧ load8 s'.mem h ≠ 0 :=
  ⟨_, _, rfl, by decide, by decide, by decide, by decide⟩

/-! ## Transfer primitives: `m_copy`, `m_copyd` -/

theorem m_copy_loop_outside (n : Nat) : ∀ (m : Mem) (src dst i x : Nat),
    x < dst + i ∨ dst + i + n ≤ x → __m_copy_loop n m src dst i x = m x := by
  induction n with
  | zero =>
    intro m src dst i x _
    rfl
  | succ n ih =>
    intro m src dst i x hx
    show __m_copy_loop n (store8 m (dst + i) (load8 m (src + i))) src dst (i + 1) x = m x
    rw [ih _ _ _ _ _ (by omega)]
    unfold store8
    rw [if_neg (by omega)]

theorem m_copy_loop_copied (n : Nat) : ∀ (m : Mem) (src dst i : Nat),
    src + i + n ≤ dst + i ∨ dst + i + n ≤ src + i → ∀ k, k < n →
      __m_copy_loop n m src dst i (dst + i + k) = m (src + i + k) % 256 := by
  induction n with
  | zero =>
    intro m src dst i _ k hk
    omega
  | succ n ih =>
    intro m src dst i hd k hk
    show __m_copy_loop n (store8 m (dst + i) (load8 m (src + i))) src dst (i + 1) (dst + i + k)
      = m (src + i + k) % 256
    cases k with
    | zero =>
      rw [m_copy_loop_outside n _ _ _ _ _ (by omega)]
      simp [store8, load8]
    | succ k =>
      have e1 : dst + i + (k + 1) = dst + (i + 1) + k := by omega
      have e2 : src + i + (k + 1) = src + (i + 1) + k := by omega
      rw [e1, e2, ih _ _ _ _ (by omega) k (by omega)]
      unfold store8
      rw [if_neg (by omega)]

/-- Correctness of `m_copyd`: for disjoint buffers, `dst` not null and
`offset < min(srclen, dstlen)`, the call returns, leaves every `dst[i]` with
`i < offset` as it was, and makes `dst[i]` equal to `src[i]` for
`offset ≤ i < min(srclen, dstlen)`, with `src[i]` itself unchanged. -/
theorem m_copyd_copies (s : State) (src srclen dst dstlen offset : Nat)
    (hdst : dst ≠ 0)
    (hdisj : src + srclen ≤ dst ∨ dst + dstlen ≤ src)
    (hoff : offset < min srclen dstlen) :
    ∃ s', m_copyd s src srclen dst dstlen offset = Exec.ret () s' ∧
      (∀ i, i < offset → s'.mem (dst + i) = s.mem (dst + i)) ∧
      (∀ i, offset ≤ i → i < min srclen dstlen →
        load8 s'.mem (dst + i) = load8 s.mem (src + i) ∧
        load8 s'.mem (src + i) = load8 s.mem (src + i)) := by
  have hmax : (if srclen < dstlen then srclen else dstlen) = min srclen dstlen := by
    split <;> omega
  have hlt : ¬ offset ≥ min srclen dstlen := by omega
  refine ⟨{ s with mem := __m_copy_loop (min srclen dstlen - offset) s.mem src dst offset },
    ?_, ?_, ?_⟩
  · unfold m_copyd __m_copy
    rw [if_neg hdst]
    simp only [hmax]
    rw [if_neg hlt]
  · intro i hi
    exact m_copy_loop_outside _ _ _ _ _ _ (by omega)
  · intro i h1 h2
    have hle1 : min srclen dstlen ≤ srclen := Nat.min_le_left _ _
    have hle2 : min srclen dstlen ≤ dstlen := Nat.min_le_right _ _
    constructor
    · have e1 : dst + i = dst + offset + (i - offset) := by omega
      have e2 : src + i = src + offset + (i - offset) := by omega
      show __m_copy_loop (min srclen dstlen - offset) s.mem src dst offset (dst + i) % 256
        = s.mem (src + i) % 256
      rw [e1, e2, m_copy_loop_copied _ _ _ _ _ (by omega) (i - offset) (by omega)]
      exact Nat.mod_mod _ _
    · show __m_copy_loop (min srclen dstlen - offset) s.mem src dst offset (src + i) % 256
        = s.mem (src + i) % 256
      rw [m_copy_loop_outside _ _ _ _ _ _ (by omega)]

/-- Witness of `m_copyd_copies`: copying block B's payload (240 bytes at 4368)
over block C's payload (16 bytes at 4624) of `arena3` from offset 4. -/
theorem m_copyd_copies_witness :
    ∃ s', m_copyd arena3 4368 240 4624 16 4 = Exec.ret () s' ∧
      (∀ i, i < 4 → s'.mem (4624 + i) = arena3.mem (4624 + i)) ∧
      (∀ i, 4 ≤ i → i < min 240 16 →
        load8 s'.mem (4624 + i) = load8 arena3.mem (4368 + i) ∧
        load8 s'.mem (4368 + i) = load8 arena3.mem (4368 + i)) :=
  m_copyd_copies arena3 4368 240 4624 16 4 (by decide) (by decide) (by decide)

/-- C9, at the failing input `arena3`, `copy(src, dst, 0)` with `src = 4368`
and `dst = 4624`, the payloads of blocks B and C.  Their headers, 16 bytes
before each, give the lengths `30 * 8` and `2 * 8`, and `m_copyd` over those
lengths returns with `dst[1] = src[1] = 16`.  `m_copy` instead reads both
`words` fields 256 bytes before the handles, finds 0 and 0, and ends in
`R_ILLEGAL_VALUE` with the memory as it was. -/
theorem m_copy_arena3_lengths :
    block_words arena3.mem (4368 - sizeof_block_metadata) = 30 ∧
      block_words arena3.mem (4624 - sizeof_block_metadata) = 2 ∧
      (∃ s', m_copyd arena3 4368 (30 * arena3.word_size) 4624 (2 * arena3.word_size) 0
          = Exec.ret () s' ∧ load8 s'.mem (4624 + 1) = 16) ∧
      block_words arena3.mem (metadata_before 4368) = 0 ∧
      block_words arena3.mem (metadata_before 4624) = 0 ∧
      m_copy arena3 4368 4624 0 = Exec.fatal result_code.R_ILLEGAL_VALUE arena3 ∧
      m_copy arena3 4368 4624 0
        ≠ m_copyd arena3 4368 (30 * arena3.word_size) 4624 (2 * arena3.word_size) 0 := by
  refine ⟨by decide, by decide, ⟨_, rfl, by decide⟩, by decide, by decide, rfl, ?_⟩
  intro h
  have h1 : m_copy arena3 4368 4624 0 = Exec.fatal result_code.R_ILLEGAL_VALUE arena3 := rfl
  have h2 : m_copyd arena3 4368 (30 * arena3.word_size) 4624 (2 * arena3.word_size) 0
      = Exec.ret () { arena3 with mem := __m_copy_loop 16 arena3.mem 4368 4624 0 } := rfl
  rw [h1, h2] at h
  exact Exec.noConfusion h

/-- The checks of `__m_copy`, the call both `m_copy` and `m_copyd` end in,
over the lengths it is handed.  With `dst` null it ends in `R_NULL_POINTER`, whatever `src`, the lengths and the offset
are.  With `dst` not null it ends in `R_ILLEGAL_VALUE` exactly when
`offset ≥ min(srclen, dstlen)`.  Whenever it ends in a fatal error the state,
and so every byte of memory, is as it was before the call. -/
theorem m_copy_fatal_cases (s : State) (src srclen dst dstlen offset : Nat) :
    (dst = 0 →
      __m_copy s src srclen dst dstlen offset = Exec.fatal result_code.R_NULL_POINTER s) ∧
    (dst ≠ 0 →
      ((∃ s', __m_copy s src srclen dst dstlen offset
          = Exec.fatal result_code.R_ILLEGAL_VALUE s') ↔ offset ≥ min srclen dstlen)) ∧
    (∀ c s', __m_copy s src srclen dst dstlen offset = Exec.fatal c s' → s' = s) := by
  have hmax : (if srclen < dstlen then srclen else dstlen) = min srclen dstlen := by
    split <;> omega
  refine ⟨?_, ?_, ?_⟩
  · intro h
    unfold __m_copy
    rw [if_pos h]
    rfl
  · intro h
    unfold __m_copy r_debug_fatalf
    rw [if_neg h]
    simp only [hmax]
    by_cases hoff : offset ≥ min srclen dstlen
    · rw [if_pos hoff]
      exact ⟨fun _ => hoff, fun _ => ⟨s, rfl⟩⟩
    · rw [if_neg hoff]
      constructor
      · rintro ⟨s', h'⟩
        exact Exec.noConfusion h'
      · intro h'
        exact absurd h' hoff
  · intro c s'
    unfold __m_copy r_debug_fatalf
    simp only [hmax]
    by_cases h : dst = 0
    · rw [if_pos h]
      intro h'
      injection h' with _ h2
      exact h2.symm
    · rw [if_neg h]
      by_cases hoff : offset ≥ min srclen dstlen
      · rw [if_pos hoff]
        intro h'
        injection h' with _ h2
        exact h2.symm
      · rw [if_neg hoff]
        intro h'
        exact Exec.noConfusion h'

/-- Witness of `m_copy_fatal_cases` on `arena3`: a null `dst`, and a `dst`
that is not null with offset 16 against lengths 240 and 16. -/
theorem m_copy_fatal_cases_witness :
    __m_copy arena3 4368 240 0 16 0 = Exec.fatal result_code.R_NULL_POINTER arena3 ∧
    ∃ s', __m_copy arena3 4368 240 4624 16 16 = Exec.fatal result_code.R_ILLEGAL_VALUE s' :=
  ⟨(m_copy_fatal_cases arena3 4368 240 0 16 0).1 rfl,
    ((m_copy_fatal_cases arena3 4368 240 4624 16 16).2.1 (by decide)).2 (by decide)⟩

/-- C10, at the failing input `arena3`, `copy(src, dst, 4)` with `src = 4368`
and `dst = 4624`, the payloads of blocks B and C.  `dst` is not null and the
offset 4 is below `min(240, 16)`, the lengths the two headers give, so the
claim has the copy succeed, as `m_copyd` over those lengths does.  `m_copy`
reads both lengths 256 bytes before the handles, gets 0 and 0, and ends in
`R_ILLEGAL_VALUE`.  For a null `dst` the place line 198 reads the length
from, before any null check, is `0 - 256 = 2 ^ 64 - 256`. -/
theorem m_copy_arena3_illegal_value :
    (4624 : Nat) ≠ 0 ∧
      block_words arena3.mem (4368 - sizeof_block_metadata) * arena3.word_size = 240 ∧
      block_words arena3.mem (4624 - sizeof_block_metadata) * arena3.word_size = 16 ∧
      ¬ (4 ≥ min 240 16) ∧
      (∃ s', m_copyd arena3 4368 240 4624 16 4 = Exec.ret () s') ∧
      m_copy arena3 4368 4624 4 = Exec.fatal result_code.R_ILLEGAL_VALUE arena3 ∧
      metadata_before 0 = 2 ^ 64 - 256 :=
  ⟨by decide, by decide, by decide, by decide, ⟨_, rfl⟩, rfl, by decide⟩

/-! ## Transfer primitives: `m_set`, `m_setd` -/

theorem m_set_inner_eq_copy (n : Nat) : ∀ (m : Mem) (memory value i j : Nat),
    i + j + n ≤ SIZE_MOD →
      __m_set_inner n m memory value i j = __m_copy_loop n m value (memory + i) j := by
  induction n with
  | zero =>
    intro m memory value i j _
    rfl
  | succ n ih =>
    intro m memory value i j h
    show __m_set_inner n (store8 m (memory + (i + j) % SIZE_MOD) (load8 m (value + j)))
        memory value i (j + 1)
      = __m_copy_loop n (store8 m (memory + i + j) (load8 m (value + j))) value (memory + i) (j + 1)
    have e : memory + (i + j) % SIZE_MOD = memory + i + j := by
      rw [Nat.mod_eq_of_lt (by omega)]
      omega
    rw [e]
    exact ih _ _ _ _ _ (by omega)

/-- The run of the fill loop from index `i` when `c` iterations are left and
no addition wraps: with fuel for `c + 1` tests it ends, changes nothing outside
the `c * stride` bytes from `memory + i` on, and, the pattern lying outside
those bytes, leaves byte `k` of them equal to `value[k % stride]`. -/
theorem m_set_loop_run (memory value stride len : Nat) (hs : 1 ≤ stride) (c : Nat) :
    ∀ (m : Mem) (i : Nat), i + c * stride < SIZE_MOD →
      len ≤ i + c * stride → (∀ t, t < c → i + t * stride < len) →
      ∃ m', (∀ fuel, c + 1 ≤ fuel →
          __m_set_loop fuel m memory value stride len i = some m') ∧
        (∀ x, x < memory + i ∨ memory + i + c * stride ≤ x → m' x = m x) ∧
        (value + stride ≤ memory + i ∨ memory + i + c * stride ≤ value →
          ∀ k, k < c * stride → m' (memory + i + k) = m (value + k % stride) % 256) := by
  induction c with
  | zero =>
    intro m i _ hlen _
    refine ⟨m, ?_, fun _ _ => rfl, ?_⟩
    · intro fuel hf
      obtain ⟨f, rfl⟩ : ∃ f, fuel = f + 1 := ⟨fuel - 1, by omega⟩
      show (if i < len then _ else some m) = some m
      rw [if_neg (by omega)]
    · intro _ k hk
      omega
  | succ c ih =>
    intro m i hwrap hlen hlt
    have hmul : (c + 1) * stride = c * stride + stride := Nat.succ_mul c stride
    have hi : i < len := by
      have := hlt 0 (by omega)
      omega
    have hstep : (i + stride) % SIZE_MOD = i + stride := Nat.mod_eq_of_lt (by omega)
    have hinner : __m_set_inner stride m memory value i 0
        = __m_copy_loop stride m value (memory + i) 0 :=
      m_set_inner_eq_copy stride m memory value i 0 (by omega)
    have hlt' : ∀ t, t < c → i + stride + t * stride < len := by
      intro t ht
      have := hlt (t + 1) (by omega)
      rw [Nat.succ_mul] at this
      omega
    obtain ⟨m', hm', hout, hin⟩ := ih (__m_copy_loop stride m value (memory + i) 0)
      (i + stride) (by omega) (by omega) hlt'
    refine ⟨m', ?_, ?_, ?_⟩
    · intro fuel hf
      obtain ⟨f, rfl⟩ : ∃ f, fuel = f + 1 := ⟨fuel - 1, by omega⟩
      show (if i < len then __m_set_loop f (__m_set_inner stride m memory value i 0) memory value
        stride len ((i + stride) % SIZE_MOD) else some m) = some m'
      rw [if_pos hi, hstep, hinner]
      exact hm' f (by omega)
    · intro x hx
      rw [hout x (by omega)]
      exact m_copy_loop_outside stride m value (memory + i) 0 x (by omega)
    · intro hd k hk
      by_cases hks : k < stride
      · rw [hout (memory + i + k) (by omega), Nat.mod_eq_of_lt hks]
        have := m_copy_loop_copied stride m value (memory + i) 0 (by omega) k hks
        simpa using this
      · obtain ⟨k', rfl⟩ : ∃ k', k = stride + k' := ⟨k - stride, by omega⟩
        have e : memory + i + (stride + k') = memory + (i + stride) + k' := by omega
        have hmod : (stride + k') % stride = k' % stride := by
          rw [Nat.add_mod_left]
        have hk' : k' % stride < stride := Nat.mod_lt _ (by omega)
        rw [e, hin (by omega) k' (by omega), hmod]
        rw [m_copy_loop_outside stride m value (memory + i) 0 (value + k' % stride) (by omega)]

theorem fill_end_eq (stride len : Nat) (hs : 1 ≤ stride) :
    fill_end stride len = if len % stride = 0 then len else len + (stride - len % stride) := by
  have hdm := Nat.div_add_mod len stride
  have hr := Nat.mod_lt len (show 0 < stride by omega)
  generalize len / stride = q at hdm
  generalize len % stride = r at hdm hr
  have hqs : stride * q = q * stride := Nat.mul_comm _ _
  unfold fill_end
  split
  · have : (len + (stride - 1)) / stride = q := by
      apply Nat.div_eq_of_lt_le
      · omega
      · rw [Nat.succ_mul]
        omega
    rw [this]
    omega
  · have : (len + (stride - 1)) / stride = q + 1 := by
      apply Nat.div_eq_of_lt_le
      · rw [Nat.succ_mul]
        omega
      · rw [Nat.succ_mul, Nat.succ_mul]
        omega
    rw [this, Nat.succ_mul]
    omega

theorem fill_end_bounds (stride len : Nat) (hs : 1 ≤ stride) :
    len ≤ fill_end stride len ∧ fill_end stride len < len + stride ∧
      ∀ t, t < (len + (stride - 1)) / stride → t * stride < len := by
  have he := fill_end_eq stride len hs
  have hr := Nat.mod_lt len (show 0 < stride by omega)
  have h1 : len ≤ fill_end stride len ∧ fill_end stride len < len + stride := by
    rw [he]
    split <;> omega
  refine ⟨h1.1, h1.2, ?_⟩
  intro t ht
  have h2 : (t + 1) * stride ≤ (len + (stride - 1)) / stride * stride :=
    Nat.mul_le_mul_right stride ht
  rw [Nat.succ_mul] at h2
  have h3 : (len + (stride - 1)) / stride * stride = fill_end stride len := rfl
  omega

/-- The whole of `m_setd` when no `size_t` addition wraps: with fuel for
`ceil(len / stride) + 1` loop tests it returns; only the `fill_end stride len`
bytes from `memory` on can change and the rest of the state is kept; and, the
pattern lying outside those bytes, byte `k` of them ends as `value[k % stride]`. -/
theorem m_setd_run (s : State) (memory value stride len : Nat)
    (hmem : memory ≠ 0) (hs : 1 ≤ stride) (hN : fill_end stride len < SIZE_MOD) :
    ∃ s', (∀ fuel, (len + (stride - 1)) / stride + 1 ≤ fuel →
          m_setd fuel s memory value stride len = Exec.ret () s') ∧
      s'.heap = s.heap ∧
      (∀ x, x < memory ∨ memory + fill_end stride len ≤ x → s'.mem x = s.mem x) ∧
      (value + stride ≤ memory ∨ memory + fill_end stride len ≤ value →
        ∀ k, k < fill_end stride len →
          load8 s'.mem (memory + k) = load8 s.mem (value + k % stride)) := by
  have hb := fill_end_bounds stride len hs
  have hfe : (len + (stride - 1)) / stride * stride = fill_end stride len := rfl
  obtain ⟨m', hrun, hout, hin⟩ := m_set_loop_run memory value stride len hs
    ((len + (stride - 1)) / stride) s.mem 0 (by omega) (by omega)
    (fun t ht => by have := hb.2.2 t ht; omega)
  refine ⟨{ s with mem := m' }, ?_, rfl, ?_, ?_⟩
  · intro fuel hf
    unfold m_setd __m_set
    rw [if_neg hmem, hrun fuel hf]
  · intro x hx
    exact hout x (by omega)
  · intro hd k hk
    have := hin (by omega) k (by omega)
    show m' (memory + k) % 256 = s.mem (value + k % stride) % 256
    rw [Nat.add_zero] at this
    rw [this, Nat.mod_mod]

/-- Correctness of `m_setd` when `stride` divides `len`: for a buffer that is
not null, `1 ≤ stride`, `len` a `size_t` and a pattern outside the buffer, the
call returns with byte `k` of the buffer equal to `value[k % stride]` for every
`k < len` and nothing else in memory changed. -/
theorem m_setd_fills_multiple (s : State) (memory value stride len : Nat)
    (hmem : memory ≠ 0) (hs : 1 ≤ stride) (hlen : len < SIZE_MOD) (hdvd : stride ∣ len)
    (hd : value + stride ≤ memory ∨ memory + len ≤ value) :
    ∃ s', (∀ fuel, len / stride + 1 ≤ fuel →
          m_setd fuel s memory value stride len = Exec.ret () s') ∧
      (∀ k, k < len → load8 s'.mem (memory + k) = load8 s.mem (value + k % stride)) ∧
      (∀ x, x < memory ∨ memory + len ≤ x → s'.mem x = s.mem x) := by
  have he : fill_end stride len = len := by
    rw [fill_end_eq stride len hs, if_pos (Nat.mod_eq_zero_of_dvd hdvd)]
  have hc : (len + (stride - 1)) / stride = len / stride := by
    obtain ⟨q, rfl⟩ := hdvd
    rw [Nat.mul_div_cancel_left q (by omega)]
    apply Nat.div_eq_of_lt_le
    · rw [Nat.mul_comm]
      omega
    · rw [Nat.succ_mul, Nat.mul_comm]
      omega
  obtain ⟨s', hrun, _, hout, hin⟩ := m_setd_run s memory value stride len hmem hs (by omega)
  rw [he] at hout hin
  rw [hc] at hrun
  exact ⟨s', hrun, hin hd, hout⟩

/-- Witness of `m_setd_fills_multiple` on `arena3`: a fill of the 16 bytes at
4624 with the 4-byte pattern at 4368. -/
theorem m_setd_fills_multiple_witness :
    ∃ s', (∀ fuel, 16 / 4 + 1 ≤ fuel →
          m_setd fuel arena3 4624 4368 4 16 = Exec.ret () s') ∧
      (∀ k, k < 16 → load8 s'.mem (4624 + k) = load8 arena3.mem (4368 + k % 4)) ∧
      (∀ x, x < 4624 ∨ 4624 + 16 ≤ x → s'.mem x = arena3.mem x) :=
  m_setd_fills_multiple arena3 4624 4368 4 16 (by decide) (by decide) (by decide) (by decide)
    (by decide)

theorem m_set_loop_stride_zero (memory value len : Nat) (hlen : 0 < len) :
    ∀ (fuel : Nat) (m : Mem), __m_set_loop fuel m memory value 0 len 0 = none := by
  intro fuel
  induction fuel with
  | zero =>
    intro m
    rfl
  | succ f ih =>
    intro m
    show (if 0 < len then __m_set_loop f (__m_set_inner 0 m memory value 0 0) memory value 0 len
      ((0 + 0) % SIZE_MOD) else some m) = none
    rw [if_pos hlen]
    exact ih _

theorem m_set_loop_wraps (memory value : Nat) :
    ∀ (fuel : Nat) (m : Mem) (i : Nat), i % 2 = 0 → i < SIZE_MOD →
      __m_set_loop fuel m memory value 2 (SIZE_MOD - 1) i = none := by
  intro fuel
  induction fuel with
  | zero =>
    intro m i _ _
    rfl
  | succ f ih =>
    intro m i h2 hi
    unfold SIZE_MOD at hi
    show (if i < SIZE_MOD - 1 then __m_set_loop f (__m_set_inner 2 m memory value i 0) memory
      value 2 (SIZE_MOD - 1) ((i + 2) % SIZE_MOD) else some m) = none
    rw [if_pos (by unfold SIZE_MOD; omega)]
    exact ih _ _ (by unfold SIZE_MOD; omega) (by unfold SIZE_MOD; omega)

/-- C11, at the failing input `arena3`, `fill(h, pattern, 1)` with `h = 4624`
(block C, whose header at `h - 16` has `words = 2`) and the one-byte pattern
16 stored at 4369.  `m_setd` over the header length `2 * 8` returns with
`h[0] = 16`.  `m_set` instead reads `words` 256 bytes before the handle, finds
0, and returns with the state as it was: `h[0]` is still 255. -/
theorem m_set_arena3_length (fuel : Nat) :
    block_words arena3.mem (4624 - sizeof_block_metadata) = 2 ∧
      load8 arena3.mem 4369 = 16 ∧
      (∃ s', m_setd 17 arena3 4624 4369 1 (2 * arena3.word_size) = Exec.ret () s' ∧
        load8 s'.mem 4624 = 16) ∧
      block_words arena3.mem (metadata_before 4624) = 0 ∧
      m_set (fuel + 1) arena3 4624 4369 1 = Exec.ret () arena3 ∧
      load8 arena3.mem 4624 = 255 :=
  ⟨by decide, by decide, ⟨_, rfl, by decide⟩, by decide, rfl, by decide⟩

/-! ## Arena creation and topology accessors -/

/-- The creating call, from any state in which the pointer `heap` is null and
for any reported page size `> 0`: `page_size` and
`pages = floor(maxbytes / page_size)` are stored, and the call ends in the
fault of line 88 with the `struct heap` fields as they were. -/
theorem m_heap_create_null_heap (p : Platform) (s : State) (minbytes maxbytes : Nat)
    (hnull : s.heap_ptr = 0) (hpage : 0 < p.os_page_size) :
    m_heap_create p s minbytes maxbytes
      = Exec.fault { s with
          page_size := p.os_page_size,
          pages := maxbytes / p.os_page_size } := by
  unfold m_heap_create __m_init_page_size m_heap_create_init
  simp only [hnull, if_neg (Nat.pos_iff_ne_zero.mp hpage), if_true]

/-- Witness of `m_heap_create_null_heap`: the first call of a process on a
Unix platform with 4096-byte pages. -/
theorem m_heap_create_null_heap_witness :
    m_heap_create unix4096 startup 4096 1048576
      = Exec.fault { startup with page_size := 4096, pages := 1048576 / 4096 } :=
  m_heap_create_null_heap unix4096 startup 4096 1048576 rfl (by decide)

/-- C12, at the failing input `startup` (the first call of a process, `heap`
null), `create_arena(4096, 1048576)` with 4096-byte pages.  Line 86 stores
`pages = 256`, and `256 * 4096 = 1048576` is the size line 87 computes, but
the call ends in the fault of line 88, the store through the null `heap`: it
does not return, and the capacity is recorded nowhere (`heap->size` is not
written). -/
theorem m_heap_create_startup :
    startup.heap_ptr = 0 ∧
    ∃ s', m_heap_create unix4096 startup 4096 1048576 = Exec.fault s' ∧
      s'.page_size = 4096 ∧ s'.pages = 256 ∧ s'.pages * s'.page_size = 1048576 ∧
      s'.heap = startup.heap ∧ s'.heap.size = 0 ∧
      ¬ ∃ s'', m_heap_create unix4096 startup 4096 1048576 = Exec.ret () s'' := by
  refine ⟨rfl, _, rfl, by decide, by decide, by decide, rfl, rfl, ?_⟩
  rintro ⟨s'', h⟩
  exact Exec.noConfusion h

/-- C13, at the failing input `arena3` (an initialised arena: `heap` not
null, three live blocks, `last_block = 4608`, `next_block = 4640`) and a second
`m_heap_create(4096, 4096)`: the call returns with the buffer address and the
capacity unchanged, but with `last_block = 0` and `next_block = 4096`, the
arena start. -/
theorem m_heap_create_again_arena3 :
    arena3.heap_ptr ≠ 0 ∧
    ∃ s', m_heap_create unix4096 arena3 4096 4096 = Exec.ret () s' ∧
      s'.heap.memory = arena3.heap.memory ∧ s'.heap.size = arena3.heap.size ∧
      arena3.heap.last_block = 4608 ∧ arena3.heap.next_block = 4640 ∧
      s'.heap.last_block = 0 ∧ s'.heap.next_block = 4096 ∧
      s'.heap.last_block ≠ arena3.heap.last_block ∧
      s'.heap.next_block ≠ arena3.heap.next_block :=
  ⟨by decide, _, rfl, by decide, by decide, by decide, by decide, by decide, by decide,
    by decide, by decide⟩

/-- C14, at the failing input `arena3`, `free(NULL)`: `m_free` returns
`R_SUCCESS`, not a fatal `R_NULL_POINTER`, and moves both cursors: it takes
the 16 bytes at `0 - 256`, that is at `2 ^ 64 - 256`, for the header and leaves
`next_block = 2 ^ 64 - 256` and `last_block = 0`. -/
theorem m_free_null_arena3 :
    ∃ s', m_free arena3 0 = Exec.ret result_code.R_SUCCESS s' ∧
      (¬ ∃ s'', m_free arena3 0 = Exec.fatal result_code.R_NULL_POINTER s'') ∧
      s'.heap.next_block = 2 ^ 64 - 256 ∧ s'.heap.last_block = 0 ∧
      s'.heap.next_block ≠ arena3.heap.next_block ∧
      s'.heap.last_block ≠ arena3.heap.last_block := by
  refine ⟨_, rfl, ?_, by decide, by decide, by decide, by decide⟩
  rintro ⟨s'', h⟩
  exact Exec.noConfusion h

/-- C15 as stated fails at `arena3_caches`, `level = 2` with `caches = 2`:
each of the three accessors returns a number instead of failing.
`cache_size[2]` is the 64 stored in `sector_size[0]`, `sector_size[2]` is the
1 stored after the table, and the line count is `64 / 1`. -/
theorem m_get_cache_level_2 :
    arena3_caches.caches ≤ 2 ∧
      m_get_cache_size arena3_caches 2 = Exec.ret 64 arena3_caches ∧
      m_get_sector_size arena3_caches 2 = Exec.ret 1 arena3_caches ∧
      m_get_cache_sectors arena3_caches 2 = Exec.ret 64 arena3_caches ∧
      ¬ (∃ c s', m_get_cache_size arena3_caches 2 = Exec.fatal c s') ∧
      ¬ (∃ c s', m_get_sector_size arena3_caches 2 = Exec.fatal c s') ∧
      ¬ (∃ c s', m_get_cache_sectors arena3_caches 2 = Exec.fatal c s') := by
  refine ⟨by decide, ?_, ?_, ?_, ?_, ?_, ?_⟩
  · show Exec.ret (load64 arena3_caches.mem (8192 + 8 * 2)) arena3_caches = _
    rw [show load64 arena3_caches.mem (8192 + 8 * 2) = 64 by decide]
  · show Exec.ret (load64 arena3_caches.mem (8208 + 8 * 2)) arena3_caches = _
    rw [show load64 arena3_caches.mem (8208 + 8 * 2) = 1 by decide]
  · show Exec.ret (load64 arena3_caches.mem (8192 + 8 * 2)
      / load64 arena3_caches.mem (8208 + 8 * 2)) arena3_caches = _
    rw [show load64 arena3_caches.mem (8192 + 8 * 2) = 64 by decide,
      show load64 arena3_caches.mem (8208 + 8 * 2) = 1 by decide]
  · rintro ⟨c, s', h⟩
    exact Exec.noConfusion h
  · rintro ⟨c, s', h⟩
    exact Exec.noConfusion h
  · rintro ⟨c, s', h⟩
    exact Exec.noConfusion h

/-- C15 amended: the accessors make no index check.  For every state and every
level, below `caches` or not, `m_get_cache_size` returns entry `level` of the
array `cache_size` and `m_get_sector_size` entry `level` of the array
`sector_size`, with the state unchanged and never a fatal error; where that
sector size is not 0, `m_get_cache_sectors` returns the quotient of the two. -/
theorem m_get_cache_no_index_check (s : State) (level : Nat) :
    ∃ size sector, m_get_cache_size s level = Exec.ret size s ∧
      m_get_sector_size s level = Exec.ret sector s ∧
      size = load64 s.mem (s.cache_size + 8 * level) ∧
      sector = load64 s.mem (s.sector_size + 8 * level) ∧
      (sector ≠ 0 → m_get_cache_sectors s level = Exec.ret (size / sector) s) :=
  ⟨_, _, rfl, rfl, rfl, rfl, fun _ => rfl⟩

/-- Witness of `m_get_cache_no_index_check`: level 0 of `arena3_caches`, a
cache of 32768 bytes in sectors of 64, so 512 sectors. -/
theorem m_get_cache_no_index_check_witness :
    m_get_cache_sectors arena3_caches 0 = Exec.ret 512 arena3_caches := by
  obtain ⟨size, sector, _, _, h3, h4, h5⟩ := m_get_cache_no_index_check arena3_caches 0
  have e3 : size = 32768 := by
    rw [h3]
    decide
  have e4 : sector = 64 := by
    rw [h4]
    decide
  subst e3 e4
  exact h5 (by decide)

/-! ## Header location, rounding, termination and frames -/

/-- C16, at the failing input `arena3`, `h = get(16) = 4624`.  `m_get` takes
`words` from the header at `h - 16 = 4608` (`words = 2`), leaving
`next_block = h + 2 * 8`.  `m_free`, `m_copy` and `m_set` compute
`metadata_before h = h - 256 = 4368` instead: `m_free` leaves
`next_block = 4368`, and `m_copy` and `m_set` run on the length
`words * word_size` they read there, which is 0. -/
theorem metadata_before_arena3 (fuel : Nat) :
    ∃ h s1 r s2, m_get arena3 16 = Exec.ret h s1 ∧ h = 4624 ∧
      block_words s1.mem (h - sizeof_block_metadata) = 2 ∧
      s1.heap.next_block = h + 2 * s1.word_size ∧
      metadata_before h = h - 256 ∧
      metadata_before h ≠ h - sizeof_block_metadata ∧
      block_words s1.mem (metadata_before h) = 0 ∧
      m_free s1 h = Exec.ret r s2 ∧ s2.heap.next_block = h - 256 ∧
      m_copy s1 h h 0 = m_copyd s1 h (0 * s1.word_size) h (0 * s1.word_size) 0 ∧
      m_copy s1 h h 0 ≠ m_copyd s1 h (2 * s1.word_size) h (2 * s1.word_size) 0 ∧
      m_set (fuel + 1) s1 h 4369 1 = m_setd (fuel + 1) s1 h 4369 1 (0 * s1.word_size) := by
  refine ⟨_, _, _, _, rfl, by decide, by decide, by decide, by decide, by decide, by decide,
    rfl, by decide, rfl, ?_, rfl⟩
  intro h
  have h2 := congrArg Exec.is_fatal h
  exact Bool.noConfusion (h2 : true = false)

/-- C17: for every arena state with `word_size > 0` and every `minbytes` (a
`size_t`), `m_get` returns, and the `words` field of the header it writes at
the old `next_block` is `floor(minbytes / word_size)`; `words * word_size` is
less than `minbytes` exactly when `word_size` does not divide `minbytes`. -/
theorem m_get_rounds_down (s : State) (minbytes : Nat)
    (_hws : 0 < s.word_size) (hmin : minbytes < SIZE_MOD) :
    ∃ h s', m_get s minbytes = Exec.ret h s' ∧
      block_words s'.mem s.heap.next_block = minbytes / s.word_size ∧
      (block_words s'.mem s.heap.next_block * s.word_size < minbytes
        ↔ ¬ s.word_size ∣ minbytes) := by
  have hle : minbytes / s.word_size ≤ minbytes := Nat.div_le_self _ _
  have hw : block_words (store64 (store64 s.mem s.heap.next_block s.heap.last_block)
      (s.heap.next_block + 8) (minbytes / s.word_size)) s.heap.next_block
        = minbytes / s.word_size := by
    unfold block_words
    rw [load64_store64]
    exact Nat.mod_eq_of_lt (by omega)
  refine ⟨_, _, rfl, hw, ?_⟩
  show block_words (store64 (store64 s.mem s.heap.next_block s.heap.last_block)
      (s.heap.next_block + 8) (minbytes / s.word_size)) s.heap.next_block * s.word_size
        < minbytes ↔ ¬ s.word_size ∣ minbytes
  rw [hw, Nat.dvd_iff_mod_eq_zero]
  have hdm := Nat.div_add_mod minbytes s.word_size
  have hcomm : s.word_size * (minbytes / s.word_size) = minbytes / s.word_size * s.word_size :=
    Nat.mul_comm _ _
  omega

/-- Witness of `m_get_rounds_down`: `get(100)` and `get(96)` on `arena3`,
`word_size = 8`. -/
theorem m_get_rounds_down_witness :
    (∃ h s', m_get arena3 100 = Exec.ret h s' ∧
      block_words s'.mem arena3.heap.next_block = 100 / arena3.word_size ∧
      (block_words s'.mem arena3.heap.next_block * arena3.word_size < 100
        ↔ ¬ arena3.word_size ∣ 100)) ∧
    (∃ h s', m_get arena3 96 = Exec.ret h s' ∧
      block_words s'.mem arena3.heap.next_block = 96 / arena3.word_size ∧
      (block_words s'.mem arena3.heap.next_block * arena3.word_size < 96
        ↔ ¬ arena3.word_size ∣ 96)) :=
  ⟨m_get_rounds_down arena3 100 (by decide) (by decide),
    m_get_rounds_down arena3 96 (by decide) (by decide)⟩

/-- C18 as stated fails for `m_setd` on `arena3`.  With `stride = 0` and
`len = 1` on the buffer at 4624 the loop index never moves: whatever the fuel,
the call does not return.  With `stride = 2` and `len = 2 ^ 64 - 1` on the
buffer at address 1 the index stays even and wraps from `2 ^ 64 - 2` to 0, so
it never reaches `len`. -/
theorem m_setd_never_returns :
    (∀ fuel, m_setd fuel arena3 4624 4369 0 1 = Exec.timeout) ∧
    (∀ fuel, m_setd fuel arena3 1 4369 2 (SIZE_MOD - 1) = Exec.timeout) := by
  constructor
  · intro fuel
    unfold m_setd __m_set
    rw [if_neg (by decide), m_set_loop_stride_zero 4624 4369 1 (by decide)]
  · intro fuel
    unfold m_setd __m_set
    rw [if_neg (by decide), m_set_loop_wraps 1 4369 fuel _ 0 (by decide) (by decide)]

/-- C18 amended: for every buffer, every stride in 1..255 and every `len`
whose last step stays below `2 ^ 64` (`fill_end stride len < 2 ^ 64`), `m_setd`
ends, in a return or in the fatal error of a null buffer, within
`ceil(len / stride) + 1` tests of the loop condition; and `m_copyd` ends for
every `srclen`, `dstlen` and `offset`. -/
theorem m_setd_m_copyd_bounded (s : State) (memory value stride len : Nat)
    (src srclen dst dstlen offset : Nat)
    (hs : 1 ≤ stride) (_h255 : stride ≤ 255) (hN : fill_end stride len < SIZE_MOD) :
    (∃ r, r ≠ Exec.timeout ∧ ∀ fuel, (len + (stride - 1)) / stride + 1 ≤ fuel →
        m_setd fuel s memory value stride len = r) ∧
    m_copyd s src srclen dst dstlen offset ≠ Exec.timeout := by
  constructor
  · by_cases hmem : memory = 0
    · refine ⟨Exec.fatal result_code.R_NULL_POINTER s, ?_, ?_⟩
      · intro h
        exact Exec.noConfusion h
      · intro fuel _
        unfold m_setd __m_set
        rw [if_pos hmem]
        rfl
    · obtain ⟨s', hrun, _⟩ := m_setd_run s memory value stride len hmem hs hN
      refine ⟨Exec.ret () s', ?_, hrun⟩
      intro h
      exact Exec.noConfusion h
  · unfold m_copyd __m_copy r_debug_fatalf
    dsimp only
    split_ifs <;> exact fun h => Exec.noConfusion h

/-- Witness of `m_setd_m_copyd_bounded` on `arena3`: a fill of 10 bytes at 4624
with stride 4, and a copy of 16 bytes. -/
theorem m_setd_m_copyd_bounded_witness :
    (∃ r, r ≠ Exec.timeout ∧ ∀ fuel, (10 + (4 - 1)) / 4 + 1 ≤ fuel →
        m_setd fuel arena3 4624 4368 4 10 = r) ∧
    m_copyd arena3 4368 240 4624 16 0 ≠ Exec.timeout :=
  m_setd_m_copyd_bounded arena3 4624 4368 4 10 4368 240 4624 16 0 (by decide) (by decide)
    (by decide)

/-- C19: for a buffer that is not null, a stride in 1..255 and `len > 0`, the
`fill_end stride len = ceil(len / stride) * stride` bytes from `memory` on all
having addresses below `2 ^ 64`, `m_setd` returns and changes no byte of
memory outside those bytes; when the pattern lies outside them, byte `k` of
the buffer ends as `value[k % stride]` for every `k < fill_end stride len`.
When `stride` does not divide `len`, `fill_end stride len - len
= stride - len % stride` of these bytes are at indices `≥ len`, and
`fill_end stride len = len` exactly when `stride` divides `len`. -/
theorem m_setd_written_bytes (s : State) (memory value stride len : Nat)
    (hmem : memory ≠ 0) (hs : 1 ≤ stride) (h255 : stride ≤ 255) (_hlen : 0 < len)
    (hspace : memory + fill_end stride len ≤ SIZE_MOD) :
    ∃ s', (∀ fuel, (len + (stride - 1)) / stride + 1 ≤ fuel →
          m_setd fuel s memory value stride len = Exec.ret () s') ∧
      (∀ x, x < memory ∨ memory + fill_end stride len ≤ x → s'.mem x = s.mem x) ∧
      (value + stride ≤ memory ∨ memory + fill_end stride len ≤ value →
        ∀ k, k < fill_end stride len →
          load8 s'.mem (memory + k) = load8 s.mem (value + k % stride)) ∧
      len ≤ fill_end stride len ∧
      (¬ stride ∣ len →
        fill_end stride len - len = stride - len % stride ∧ len < fill_end stride len) ∧
      (fill_end stride len = len ↔ stride ∣ len) := by
  obtain ⟨s', hrun, _, hout, hin⟩ :=
    m_setd_run s memory value stride len hmem hs (by omega)
  have he := fill_end_eq stride len hs
  have hr := Nat.mod_lt len (show 0 < stride by omega)
  refine ⟨s', hrun, hout, hin, (fill_end_bounds stride len hs).1, ?_, ?_⟩
  · intro hnd
    rw [Nat.dvd_iff_mod_eq_zero] at hnd
    rw [he, if_neg hnd]
    omega
  · rw [Nat.dvd_iff_mod_eq_zero, he]
    split <;> omega

/-- Witness of `m_setd_written_bytes` on `arena3`: a fill of 10 bytes at 4624
with the 4-byte pattern at 4368, which writes 12 bytes. -/
theorem m_setd_written_bytes_witness :
    ∃ s', (∀ fuel, (10 + (4 - 1)) / 4 + 1 ≤ fuel →
          m_setd fuel arena3 4624 4368 4 10 = Exec.ret () s') ∧
      (∀ x, x < 4624 ∨ 4624 + fill_end 4 10 ≤ x → s'.mem x = arena3.mem x) ∧
      (4368 + 4 ≤ 4624 ∨ 4624 + fill_end 4 10 ≤ 4368 →
        ∀ k, k < fill_end 4 10 →
          load8 s'.mem (4624 + k) = load8 arena3.mem (4368 + k % 4)) ∧
      10 ≤ fill_end 4 10 ∧
      (¬ 4 ∣ 10 → fill_end 4 10 - 10 = 4 - 10 % 4 ∧ 10 < fill_end 4 10) ∧
      (fill_end 4 10 = 10 ↔ 4 ∣ 10) :=
  m_setd_written_bytes arena3 4624 4368 4 10 (by decide) (by decide) (by decide) (by decide)
    (by decide)

/-- C20: when `m_copyd` on disjoint buffers returns, `dst` is not null and
`offset < min(srclen, dstlen)`; every byte of memory outside the
`min(srclen, dstlen) - offset` bytes `dst[offset .. min(srclen, dstlen))` is
unchanged, in particular every byte of `src` and every `dst[i]` with
`i ≥ min(srclen, dstlen)` or `i < offset`; each byte of that range is
assigned, to the value of `src` at the same index; and the heap object is
untouched. -/
theorem m_copyd_frame (s s' : State) (src srclen dst dstlen offset : Nat)
    (hdisj : src + srclen ≤ dst ∨ dst + dstlen ≤ src)
    (hret : m_copyd s src srclen dst dstlen offset = Exec.ret () s') :
    dst ≠ 0 ∧ offset < min srclen dstlen ∧
      (∀ i, i < srclen → s'.mem (src + i) = s.mem (src + i)) ∧
      (∀ i, min srclen dstlen ≤ i → s'.mem (dst + i) = s.mem (dst + i)) ∧
      (∀ x, x < dst + offset ∨ dst + min srclen dstlen ≤ x → s'.mem x = s.mem x) ∧
      (∀ i, offset ≤ i → i < min srclen dstlen →
        s'.mem (dst + i) = load8 s.mem (src + i)) ∧
      (Finset.Ico (dst + offset) (dst + min srclen dstlen)).card
        = min srclen dstlen - offset ∧
      s'.heap = s.heap := by
  have hmax : (if srclen < dstlen then srclen else dstlen) = min srclen dstlen := by
    split <;> omega
  have hle1 : min srclen dstlen ≤ srclen := Nat.min_le_left _ _
  have hle2 : min srclen dstlen ≤ dstlen := Nat.min_le_right _ _
  unfold m_copyd __m_copy r_debug_fatalf at hret
  simp only [hmax] at hret
  by_cases hdst : dst = 0
  · rw [if_pos hdst] at hret
    exact Exec.noConfusion hret
  · rw [if_neg hdst] at hret
    by_cases hoff : offset ≥ min srclen dstlen
    · rw [if_pos hoff] at hret
      exact Exec.noConfusion hret
    · rw [if_neg hoff] at hret
      injection hret with _ hs'
      subst hs'
      have hframe : ∀ x, x < dst + offset ∨ dst + min srclen dstlen ≤ x →
          __m_copy_loop (min srclen dstlen - offset) s.mem src dst offset x = s.mem x :=
        fun x hx => m_copy_loop_outside _ _ _ _ _ x (by omega)
      refine ⟨hdst, by omega, ?_, ?_, hframe, ?_, ?_, rfl⟩
      · intro i hi
        exact hframe _ (by omega)
      · intro i hi
        exact hframe _ (by omega)
      · intro i h1 h2
        have e1 : dst + i = dst + offset + (i - offset) := by omega
        have e2 : src + i = src + offset + (i - offset) := by omega
        show __m_copy_loop (min srclen dstlen - offset) s.mem src dst offset (dst + i)
          = s.mem (src + i) % 256
        rw [e1, e2]
        exact m_copy_loop_copied _ _ _ _ _ (by omega) (i - offset) (by omega)
      · rw [Nat.card_Ico]
        omega

/-- Witness of `m_copyd_frame`: copying block B's payload over block C's
payload of `arena3` from offset 4. -/
theorem m_copyd_frame_witness :
    (4624 : Nat) ≠ 0 ∧ 4 < min 240 16 ∧
      (∀ i, i < 240 →
        (__m_copy_loop 12 arena3.mem 4368 4624 4) (4368 + i) = arena3.mem (4368 + i)) ∧
      (∀ i, min 240 16 ≤ i →
        (__m_copy_loop 12 arena3.mem 4368 4624 4) (4624 + i) = arena3.mem (4624 + i)) :=
  have h := m_copyd_frame arena3 { arena3 with mem := __m_copy_loop 12 arena3.mem 4368 4624 4 }
    4368 240 4624 16 4 (by decide) rfl
  ⟨h.1, h.2.1, h.2.2.1, h.2.2.2.1⟩

end Memory
